import Mathlib

/-!
Verification development for the request-construction-and-execution core of
the `minio_ext` S3-compatible client (source: `src/lib/minio_ext/api.go`).

The Go source is shallowly embedded: pure computations become Lean
functions; effectful calls (credential provider, HTTP transport, body
seeking) are threaded as explicit environment records holding the outcome
of each external call; machine integers are modelled as `Int`/`Nat`.
External collaborator packages (`s3utils`, `s3signer`, the credential
provider) are out of scope per the specification and appear as interface
records of functions.  Parts of this repository that sit outside
`src/` (the retry classifiers, the error-response XML parsing, a few
constants) are modelled from the specification and marked as such in their
doc comments.
-/

namespace MinioExt

/-! ## Basic data: errors, headers, signature types -/

/-- View of an S3 `ErrorResponse` (code, message, region hint, bucket
context), mirroring the fields the embedded functions consult. -/
structure ErrorResponse where
  statusCode : Nat := 0
  code : String := ""
  message : String := ""
  bucketName : String := ""
  region : String := ""
deriving DecidableEq

/-- A Go `error` value as it appears in this package: either a structured
`ErrorResponse` or a plain `errors.New` string. -/
inductive GoErr
  | errResp (e : ErrorResponse)
  | simple (msg : String)
deriving DecidableEq

/-- Modelled from the spec: `ErrInvalidArgument` lives in the repository
error-response file, which is not under `src/`; it wraps a message in an
`ErrorResponse` with code `InvalidArgument` and HTTP status 400. -/
def ErrInvalidArgument (msg : String) : GoErr :=
  GoErr.errResp { statusCode := 400, code := "InvalidArgument", message := msg }

/-- Modelled from the spec: `ToErrorResponse` (repository file not under
`src/`) type-asserts an error back to `ErrorResponse`; a non-matching error
yields the zero `ErrorResponse` value. -/
def ToErrorResponse : GoErr → ErrorResponse
  | GoErr.errResp e => e
  | GoErr.simple _ => {}

/-- Whether an `Except` result is a success (Go: returned `err == nil`). -/
def exceptIsOk {e a : Type} : Except e a → Bool
  | Except.ok _ => true
  | Except.error _ => false

instance {e a : Type} [DecidableEq e] [DecidableEq a] : DecidableEq (Except e a) := fun x y =>
  match x, y with
  | Except.error x, Except.error y => decidable_of_iff (x = y) (by simp)
  | Except.ok x, Except.ok y => decidable_of_iff (x = y) (by simp)
  | Except.error _, Except.ok _ => Decidable.isFalse (by simp)
  | Except.ok _, Except.error _ => Decidable.isFalse (by simp)

/-- HTTP headers `http.Header`, modelled as an association list with
first-match lookup (map keys are unique in the source). -/
def headerGet : List (String × String) → String → Option String
  | [], _ => none
  | p :: rest, k => if p.1 == k then some p.2 else headerGet rest k

/-- `http.Header.Set`: replace the value stored under a key. -/
def headerSet (h : List (String × String)) (k v : String) : List (String × String) :=
  (k, v) :: h.filter (fun p => p.1 != k)

/-- Whether a header key is present. -/
def hasHeaderKey (h : List (String × String)) (k : String) : Bool :=
  (headerGet h k).isSome

/-- `credentials.SignatureType` from the minio-go credentials package
(external collaborator; interface modelled): the four signature tags. -/
inductive SignatureType
  | signatureDefault
  | signatureV2
  | signatureV4
  | signatureAnonymous
deriving DecidableEq

/-- `SignatureType.IsV2` (minio-go): only the V2 tag. -/
def SignatureType.IsV2 : SignatureType → Bool
  | SignatureType.signatureV2 => true
  | _ => false

/-- `SignatureType.IsV4` (minio-go): the V4 tag, and the default tag is
treated as V4. -/
def SignatureType.IsV4 : SignatureType → Bool
  | SignatureType.signatureV4 => true
  | SignatureType.signatureDefault => true
  | _ => false

/-- `SignatureType.IsAnonymous` (minio-go). -/
def SignatureType.IsAnonymous : SignatureType → Bool
  | SignatureType.signatureAnonymous => true
  | _ => false

/-- A snapshot of `credentials.Value` as returned by the provider. -/
structure CredValue where
  accessKeyID : String := ""
  secretAccessKey : String := ""
  sessionToken : String := ""
  signerType : SignatureType := SignatureType.signatureDefault
deriving DecidableEq

/-- The signer-type selection repeated at api.go lines 263-280, 421-437 and
813-829: the client override wins over the provider value unless the
provider reports anonymous, in which case anonymous always wins. -/
def effectiveSignerType (overrideSignerType : SignatureType) (value : CredValue) : SignatureType :=
  let signerType :=
    if overrideSignerType ≠ SignatureType.signatureDefault then overrideSignerType
    else value.signerType
  if value.signerType = SignatureType.signatureAnonymous then SignatureType.signatureAnonymous
  else signerType

/-- `BucketLookupType` (api.go lines 146-151). -/
inductive BucketLookupType
  | bucketLookupAuto
  | bucketLookupDNS
  | bucketLookupPath
deriving DecidableEq

/-- The bucket-location cache (api.go lines 69-76): a map from bucket name
to region, modelled as an association list with unique keys. -/
structure BucketLocationCache where
  items : List (String × String)
deriving DecidableEq

/-- `bucketLocationCache.Get` (api.go lines 372-377). -/
def BucketLocationCache.get (r : BucketLocationCache) (bucketName : String) : Option String :=
  headerGet r.items bucketName

/-- `bucketLocationCache.Set` (api.go lines 593-597). -/
def BucketLocationCache.set (r : BucketLocationCache) (bucketName location : String) : BucketLocationCache :=
  ⟨(bucketName, location) :: r.items.filter (fun p => p.1 != bucketName)⟩

/-- All regions stored in the cache are non-empty strings (claim C8's
cache half). -/
def cacheInvariant (cache : BucketLocationCache) : Prop :=
  ∀ p ∈ cache.items, p.2 ≠ ""

/-- The `Client` fields consulted by the embedded functions (api.go lines
79-121).  The parsed endpoint URL is kept as scheme and host. -/
structure Client where
  endpointScheme : String := "https"
  endpointHost : String := ""
  overrideSignerType : SignatureType := SignatureType.signatureDefault
  secure : Bool := true
  s3AccelerateEndpoint : String := ""
  region : String := ""
  lookup : BucketLookupType := BucketLookupType.bucketLookupAuto
  appName : String := ""
  appVersion : String := ""
deriving DecidableEq

/-- Interface record for the external `s3utils` collaborator package
(out of scope per the spec; consumed as pure predicates on the endpoint
host and bucket name) plus the two name validators. -/
structure S3Utils where
  isAmazonEndpoint : String → Bool
  isAmazonFIPSEndpoint : String → Bool
  isVirtualHostSupported : String → String → Bool
  getRegionFromURL : String → String
  checkValidBucketName : String → Option GoErr
  checkValidObjectName : String → Option GoErr
  encodePath : String → String

/-! ## Region resolution (api.go lines 556-662) -/

/-- View of an `*http.Response` after the body has been consumed: the HTTP
status, the error-body parse results (`<Code>`, `<Region>`), and the
location-constraint decode result (`none` models an XML decode failure). -/
structure HTTPResponseView where
  statusCode : Nat := 200
  errCode : String := ""
  errRegion : String := ""
  locationBody : Option String := none
deriving DecidableEq

/-- Modelled from the spec: `httpRespToErrorResponse` lives in this
repository's error-response file, which is not under `src/`.  Per §4.6 it
parses the XML error body into an `ErrorResponse`; the parse results are
taken from the response view, with the bucket context attached. -/
def httpRespToErrorResponse (resp : HTTPResponseView) (bucketName _objectName : String) : ErrorResponse :=
  { statusCode := resp.statusCode, code := resp.errCode, region := resp.errRegion,
    bucketName := bucketName }

/-- The location-constraint normalization inside
`processBucketLocationResponse` (api.go lines 630-639): empty becomes
`us-east-1` and the legacy token `EU` becomes `eu-west-1`. -/
def normalizeLocationConstraint (locationConstraint : String) : String :=
  let location := locationConstraint
  let location := if location = "" then "us-east-1" else location
  let location := if location = "EU" then "eu-west-1" else location
  location

/-- `processBucketLocationResponse` (api.go lines 600-645).  A non-200
status goes through error parsing, where the three region-hint codes
succeed with the error's region (or `us-east-1`); a 200 status decodes the
location-constraint body and normalizes it. -/
def processBucketLocationResponse (resp : HTTPResponseView) (bucketName : String) : Except GoErr String :=
  if resp.statusCode ≠ 200 then
    let errResp := httpRespToErrorResponse resp bucketName ""
    if errResp.code = "AuthorizationHeaderMalformed" ∨ errResp.code = "InvalidRegion" ∨
        errResp.code = "AccessDenied" then
      if errResp.region = "" then Except.ok "us-east-1"
      else Except.ok errResp.region
    else Except.error (GoErr.errResp errResp)
  else
    match resp.locationBody with
    | none => Except.error (GoErr.simple "xml decode failure")
    | some locationConstraint => Except.ok (normalizeLocationConstraint locationConstraint)

/-- `getDefaultLocation` (api.go lines 653-662): the override wins, else the
region derived from the URL, else `us-east-1`. -/
def getDefaultLocation (su : S3Utils) (uHost : String) (regionOverride : String) : String :=
  if regionOverride ≠ "" then regionOverride
  else
    let region := su.getRegionFromURL uHost
    if region = "" then "us-east-1" else region

/-- `getBucketLocation` (api.go lines 558-590).  The construction of the
always-path-style location request and its execution (lines 572-583) are
external effects here, collapsed into `netResult`: the response obtained
from `c.do`, or the request-construction/transport error. -/
def getBucketLocation (su : S3Utils) (c : Client) (netResult : Except GoErr HTTPResponseView)
    (cache : BucketLocationCache) (bucketName : String) :
    Except GoErr (String × BucketLocationCache) :=
  match su.checkValidBucketName bucketName with
  | some e => Except.error e
  | none =>
    if c.region ≠ "" then Except.ok (c.region, cache)
    else
      match cache.get bucketName with
      | some location => Except.ok (location, cache)
      | none =>
        match netResult with
        | Except.error e => Except.error e
        | Except.ok resp =>
          match processBucketLocationResponse resp bucketName with
          | Except.error e => Except.error e
          | Except.ok location => Except.ok (location, cache.set bucketName location)

/-! ## Target URL construction (api.go lines 664-765) -/

/-- View of a `url.URL` as constructed by `makeTargetURL`: scheme, host,
path, and the (not yet percent-encoded) query pairs. -/
structure URLView where
  scheme : String := "https"
  host : String := ""
  pathStr : String := "/"
  query : List (String × String) := []
deriving DecidableEq

/-- `net.SplitHostPort` restricted to the shapes this package produces: a
single colon splits host and port; no colon — and the unmodelled
too-many-colons / IPv6 bracket forms — is an error (`none`). -/
def splitHostPort (s : String) : Option (String × String) :=
  if s.data.count (':') = 1 then
    some (⟨s.data.takeWhile (fun c => c != ':')⟩,
      ⟨(s.data.dropWhile (fun c => c != ':')).drop 1⟩)
  else none

/-- The default-port stripping at api.go lines 729-736 (and again at lines
397-401): drop an explicit `:80`/`:443` when it matches the scheme. -/
def stripDefaultPort (scheme host : String) : String :=
  match splitHostPort host with
  | some (h, p) =>
    if (scheme = "http" ∧ p = "80") ∨ (scheme = "https" ∧ p = "443") then h else host
  | none => host

/-- `awsS3EndpointMap` (api.go lines 154-176). -/
def awsS3EndpointMap : String → Option String
  | "us-east-1" => some "s3.dualstack.us-east-1.amazonaws.com"
  | "us-east-2" => some "s3.dualstack.us-east-2.amazonaws.com"
  | "us-west-2" => some "s3.dualstack.us-west-2.amazonaws.com"
  | "us-west-1" => some "s3.dualstack.us-west-1.amazonaws.com"
  | "ca-central-1" => some "s3.dualstack.ca-central-1.amazonaws.com"
  | "eu-west-1" => some "s3.dualstack.eu-west-1.amazonaws.com"
  | "eu-west-2" => some "s3.dualstack.eu-west-2.amazonaws.com"
  | "eu-west-3" => some "s3.dualstack.eu-west-3.amazonaws.com"
  | "eu-central-1" => some "s3.dualstack.eu-central-1.amazonaws.com"
  | "eu-north-1" => some "s3.dualstack.eu-north-1.amazonaws.com"
  | "ap-east-1" => some "s3.dualstack.ap-east-1.amazonaws.com"
  | "ap-south-1" => some "s3.dualstack.ap-south-1.amazonaws.com"
  | "ap-southeast-1" => some "s3.dualstack.ap-southeast-1.amazonaws.com"
  | "ap-southeast-2" => some "s3.dualstack.ap-southeast-2.amazonaws.com"
  | "ap-northeast-1" => some "s3.dualstack.ap-northeast-1.amazonaws.com"
  | "ap-northeast-2" => some "s3.dualstack.ap-northeast-2.amazonaws.com"
  | "sa-east-1" => some "s3.dualstack.sa-east-1.amazonaws.com"
  | "us-gov-west-1" => some "s3.dualstack.us-gov-west-1.amazonaws.com"
  | "us-gov-east-1" => some "s3.dualstack.us-gov-east-1.amazonaws.com"
  | "cn-north-1" => some "s3.cn-north-1.amazonaws.com.cn"
  | "cn-northwest-1" => some "s3.cn-northwest-1.amazonaws.com.cn"
  | _ => none

/-- `getS3Endpoint` (api.go lines 693-700): unknown regions default to the
`us-east-1` dual-stack host. -/
def getS3Endpoint (bucketLocation : String) : String :=
  match awsS3EndpointMap bucketLocation with
  | some s3Endpoint => s3Endpoint
  | none => "s3.dualstack.us-east-1.amazonaws.com"

/-- `ErrTransferAccelerationBucket` (api.go lines 683-690). -/
def ErrTransferAccelerationBucket (bucketName : String) : GoErr :=
  GoErr.errResp
    { statusCode := 400, code := "InvalidArgument",
      message := "The name of the bucket used for Transfer Acceleration must be DNS-compliant and must not contain periods.",
      bucketName := bucketName }

/-- `isVirtualHostStyleRequest` (api.go lines 665-680). -/
def isVirtualHostStyleRequest (su : S3Utils) (c : Client) (uHost bucketName : String) : Bool :=
  if bucketName = "" then false
  else if c.lookup = BucketLookupType.bucketLookupDNS then true
  else if c.lookup = BucketLookupType.bucketLookupPath then false
  else su.isVirtualHostSupported uHost bucketName

/-- The URL assembly at api.go lines 726-764 once the host has been
chosen: strip a default port, then place the bucket in the host
(virtual-host style) or in the path (path style), percent-encode the
object key, and attach the query values.  `url.Parse` of the assembled
string is modelled as the structured view itself. -/
def buildTargetURL (su : S3Utils) (scheme host0 bucketName objectName : String)
    (isVirtualHostStyle : Bool) (queryValues : List (String × String)) : URLView :=
  let host := stripDefaultPort scheme host0
  if bucketName ≠ "" then
    if isVirtualHostStyle then
      { scheme := scheme, host := bucketName ++ "." ++ host,
        pathStr := "/" ++ (if objectName ≠ "" then su.encodePath objectName else ""),
        query := queryValues }
    else
      { scheme := scheme, host := host,
        pathStr := "/" ++ bucketName ++ "/" ++ (if objectName ≠ "" then su.encodePath objectName else ""),
        query := queryValues }
  else
    { scheme := scheme, host := host, pathStr := "/", query := queryValues }

/-- `makeTargetURL` (api.go lines 703-724 plus the assembly): on a
recognized Amazon endpoint, a configured accelerate endpoint with a bucket
either rejects a dotted bucket name or substitutes the accelerate host;
otherwise (unless FIPS) the region-specific dual-stack host is used. -/
def makeTargetURL (su : S3Utils) (c : Client) (bucketName objectName bucketLocation : String)
    (isVirtualHostStyle : Bool) (queryValues : List (String × String)) : Except GoErr URLView :=
  let host := c.endpointHost
  if su.isAmazonEndpoint c.endpointHost then
    if c.s3AccelerateEndpoint ≠ "" ∧ bucketName ≠ "" then
      -- Go `strings.Contains(bucketName, ".")`, as membership of the character.
      if ('.') ∈ bucketName.data then Except.error (ErrTransferAccelerationBucket bucketName)
      else Except.ok (buildTargetURL su c.endpointScheme c.s3AccelerateEndpoint bucketName
        objectName isVirtualHostStyle queryValues)
    else
      if ¬ su.isAmazonFIPSEndpoint c.endpointHost then
        Except.ok (buildTargetURL su c.endpointScheme (getS3Endpoint bucketLocation) bucketName
          objectName isVirtualHostStyle queryValues)
      else
        Except.ok (buildTargetURL su c.endpointScheme host bucketName objectName
          isVirtualHostStyle queryValues)
  else
    Except.ok (buildTargetURL su c.endpointScheme host bucketName objectName
      isVirtualHostStyle queryValues)

/-! ## Request construction (api.go lines 46-64, 767-905) -/

/-- Classification of `requestMetadata.contentBody` (`io.Reader`) by the
two properties `executeMethod` tests: whether it implements `io.Seeker`,
and whether it is one of the three standard console streams
(`os.Stdin`/`os.Stdout`/`os.Stderr`, which are seekers).  A reader that is
not a seeker can never compare equal to a console stream. -/
inductive ContentBody
  | seekableBody
  | stdConsole
  | plainReader
deriving DecidableEq

/-- `requestMetadata` (api.go lines 47-64). -/
structure RequestMetadata where
  presignURL : Bool := false
  bucketName : String := ""
  objectName : String := ""
  queryValues : List (String × String) := []
  customHeader : List (String × String) := []
  expires : Int := 0
  bucketLocation : String := ""
  contentBody : Option ContentBody := none
  contentLength : Int := 0
  contentMD5Base64 : String := ""
  contentSHA256Hex : String := ""
deriving DecidableEq

/-- Which signing scheme `newRequest` applied to the outgoing request
(the external `s3signer` collaborator, recorded at interface level). -/
inductive SigningApplied
  | noSigning
  | preSignV2 (expires : Int) (isVirtualHost : Bool)
  | preSignV4 (location : String) (expires : Int)
  | signV2 (isVirtualHost : Bool)
  | streamingSignV4 (location : String)
  | signV4 (location : String)
deriving DecidableEq

/-- The prepared `*http.Request` as `newRequest` returns it: method, URL,
headers, attached body, content length / chunked flag, and the signing
scheme applied. -/
structure RequestView where
  method : String := "POST"
  url : URLView := {}
  header : List (String × String) := []
  body : Option ContentBody := none
  contentLength : Int := 0
  transferChunked : Bool := false
  signing : SigningApplied := SigningApplied.noSigning
deriving DecidableEq

/-- Modelled from the spec: the `unsignedPayload` sentinel constant lives
in a repository file not under `src/`; §4.3 calls it the literal
"unsigned payload" sentinel for the content-sha256 header. -/
def unsignedPayload : String := "UNSIGNED-PAYLOAD"

/-- The library user agent (api.go lines 41-44); the OS/architecture
placeholders are fixed strings here. -/
def libraryUserAgent : String := "MinIO (GOOS; GOARCH) minio-go/v6.0.44"

/-- `s3signer.PreSignV2` (external collaborator, modelled at interface
level per spec §6): appends the V2 query-string signature parameters
(`AWSAccessKeyId`, `Expires`, `Signature`) to the request URL. -/
def preSignV2Fn (req : RequestView) (value : CredValue) (expires : Int)
    (isVirtualHost : Bool) : RequestView :=
  { req with
    url := { req.url with query := req.url.query ++
      [("AWSAccessKeyId", value.accessKeyID), ("Expires", toString expires),
       ("Signature", "v2-signature")] },
    signing := SigningApplied.preSignV2 expires isVirtualHost }

/-- `s3signer.PreSignV4` (external collaborator, modelled at interface
level per spec §6): appends the V4 query-string signature parameters
carrying expiry, session token and the resolved region. -/
def preSignV4Fn (req : RequestView) (value : CredValue) (location : String)
    (expires : Int) : RequestView :=
  { req with
    url := { req.url with query := req.url.query ++
      [("X-Amz-Algorithm", "AWS4-HMAC-SHA256"),
       ("X-Amz-Credential", value.accessKeyID ++ "/" ++ location),
       ("X-Amz-Date", "iso8601-date"), ("X-Amz-Expires", toString expires),
       ("X-Amz-SignedHeaders", "host")] ++
      (if value.sessionToken ≠ "" then [("X-Amz-Security-Token", value.sessionToken)] else []) ++
      [("X-Amz-Signature", "v4-signature")] },
    signing := SigningApplied.preSignV4 location expires }

/-- Environment for `newRequest`: the credential provider result and the
outcome of a `c.getBucketLocation(metadata.bucketName)` call (the latter
is modelled in full as `getBucketLocation`; here only its result is
consumed, since it performs network IO). -/
structure NewReqEnv where
  credsResult : Except GoErr CredValue
  bucketLocResult : Except GoErr String

/-- The location resolution at the head of `newRequest` (api.go lines
774-786): a non-empty override wins; else fetch the bucket location when
a bucket is named; else (or when that is empty) the default location. -/
def resolveLocation (su : S3Utils) (c : Client) (env : NewReqEnv)
    (metadata : RequestMetadata) : Except GoErr String :=
  if metadata.bucketLocation = "" then
    match (if metadata.bucketName ≠ "" then env.bucketLocResult else Except.ok "") with
    | Except.error e => Except.error e
    | Except.ok location =>
      if location = "" then Except.ok (getDefaultLocation su c.endpointHost c.region)
      else Except.ok location
  else Except.ok metadata.bucketLocation

/-- The non-presign tail of `newRequest` (api.go lines 846-904): user
agent, custom headers, body attachment (a zero content length means no
body; a negative one switches to chunked transfer), content-MD5 header,
then the signing dispatch (anonymous / V2 / streaming V4 / standard V4). -/
def finishRequest (c : Client) (metadata : RequestMetadata) (_value : CredValue)
    (signerType : SignatureType) (location : String) (isVirtualHost : Bool)
    (method : String) (req0 : RequestView) : Except GoErr RequestView :=
  let ua :=
    if c.appName ≠ "" ∧ c.appVersion ≠ "" then
      libraryUserAgent ++ " " ++ c.appName ++ "/" ++ c.appVersion
    else libraryUserAgent
  let req := { req0 with header := headerSet req0.header "User-Agent" ua }
  let withCustom := metadata.customHeader.foldl
    (fun h (kv : String × String) => headerSet h kv.1 kv.2) req.header
  let req := { req with header := withCustom }
  let req := { req with
    body := if metadata.contentLength = 0 then none else metadata.contentBody,
    contentLength := metadata.contentLength,
    transferChunked := metadata.contentLength ≤ -1 }
  let req :=
    if metadata.contentMD5Base64.length > 0 then
      { req with header := headerSet req.header "Content-Md5" metadata.contentMD5Base64 }
    else req
  if signerType.IsAnonymous then Except.ok req
  else if signerType.IsV2 then Except.ok { req with signing := SigningApplied.signV2 isVirtualHost }
  else if metadata.objectName ≠ "" ∧ method = "PUT" ∧
      (headerGet metadata.customHeader "X-Amz-Copy-Source").getD "" = "" ∧ c.secure = false then
    Except.ok { req with signing := SigningApplied.streamingSignV4 location }
  else
    let shaHeader := if metadata.contentSHA256Hex ≠ "" then metadata.contentSHA256Hex else unsignedPayload
    Except.ok { req with
      header := headerSet req.header "X-Amz-Content-Sha256" shaHeader,
      signing := SigningApplied.signV4 location }

/-- `newRequest` (api.go lines 768-905): resolve the location, decide
virtual-host style (with the MakeBucket override), build the target URL,
fetch credentials, compute the effective signer, then either take the
presign path (`expires != 0 && presignURL`) or finish the request. -/
def newRequest (su : S3Utils) (c : Client) (env : NewReqEnv) (method0 : String)
    (metadata : RequestMetadata) : Except GoErr RequestView :=
  let method := if method0 = "" then "POST" else method0
  match resolveLocation su c env metadata with
  | Except.error e => Except.error e
  | Except.ok location =>
    let isMakeBucket :=
      (metadata.objectName == "") && (method == "PUT") && (metadata.queryValues.length == 0)
    let isVirtualHost :=
      isVirtualHostStyleRequest su c c.endpointHost metadata.bucketName && !isMakeBucket
    match makeTargetURL su c metadata.bucketName metadata.objectName location isVirtualHost
        metadata.queryValues with
    | Except.error e => Except.error e
    | Except.ok targetURL =>
      let req : RequestView := { method := method, url := targetURL, header := [] }
      match env.credsResult with
      | Except.error e => Except.error e
      | Except.ok value =>
        let signerType := effectiveSignerType c.overrideSignerType value
        if metadata.expires ≠ 0 ∧ metadata.presignURL then
          if signerType.IsAnonymous then
            Except.error (ErrInvalidArgument "Presigned URLs cannot be generated with anonymous credentials.")
          else if signerType.IsV2 then
            Except.ok (preSignV2Fn req value metadata.expires isVirtualHost)
          else if signerType.IsV4 then
            Except.ok (preSignV4Fn req value location metadata.expires)
          else Except.ok req
        else finishRequest c metadata value signerType location isVirtualHost method req

/-- Modelled from the spec: the `maxPartSize` constant lives in a
repository file not under `src/`; the spec only requires "a maximum part
size", taken here as the S3 maximum part size of 5 GiB. -/
def maxPartSize : Int := 5368709120

/-- `GenUploadPartSignedUrl` (api.go lines 908-963).  The Go function
returns `req.URL.String()`; the structured URL view is returned instead so
that its query parameters stay inspectable.  The expiry is a
`time.Duration` in nanoseconds; `int64(expires/time.Second)` is Go
truncated division, `Int.tdiv` here. -/
def GenUploadPartSignedUrl (su : S3Utils) (c : Client) (env : NewReqEnv)
    (uploadID bucketName objectName : String) (partNumber : Int) (size : Int)
    (expires : Int) (bucketLocation : String) : Except GoErr URLView :=
  match su.checkValidBucketName bucketName with
  | some e => Except.error e
  | none =>
  match su.checkValidObjectName objectName with
  | some e => Except.error e
  | none =>
  if size > maxPartSize then Except.error (GoErr.simple "size is illegal")
  else if size ≤ -1 then Except.error (GoErr.simple "size is illegal")
  else if partNumber ≤ 0 then Except.error (GoErr.simple "partNumber is illegal")
  else if uploadID = "" then Except.error (GoErr.simple "uploadID is illegal")
  else
    let urlValues := [("partNumber", toString partNumber), ("uploadId", uploadID)]
    let reqMetadata : RequestMetadata :=
      { presignURL := true, bucketName := bucketName, objectName := objectName,
        queryValues := urlValues, customHeader := [], contentLength := size,
        expires := Int.tdiv expires 1000000000, bucketLocation := bucketLocation }
    match newRequest su c env "PUT" reqMetadata with
    | Except.error e => Except.error e
    | Except.ok req => Except.ok req.url

/-- The query pairs of a `GenUploadPartSignedUrl` result (empty on error). -/
def resultQuery : Except GoErr URLView → List (String × String)
  | Except.ok u => u.query
  | Except.error _ => []

/-! ## Redirect re-authentication (api.go lines 237-295) -/

/-- The parts of an `*http.Request` the redirect hook consults: the
effective host (Go `req.Host`, falling back to `req.URL.Host`), the host
of `req.URL` (used for region derivation after the endpoint update), and
the headers. -/
structure RequestSnapshot where
  host : String := ""
  urlHost : String := ""
  header : List (String × String) := []
deriving DecidableEq

/-- Result of the redirect hook: an error, or the merged headers of the
new request together with the region `s3signer.SignV4` was invoked with
(when V4 re-signing happened). -/
inductive RedirectResult
  | failed (e : GoErr)
  | okRes (header : List (String × String)) (resignedV4Location : Option String)
deriving DecidableEq

/-- The header-copy loop at api.go lines 246-255: copy every header of the
previous request that the new request does not already carry, except
`Authorization` when the hosts differ. -/
def copyRedirectHeaders (reqHeader lastHeader : List (String × String))
    (hostsDiffer : Bool) : List (String × String) :=
  lastHeader.foldl
    (fun acc (kv : String × String) =>
      if kv.1 == "Authorization" && hostsDiffer then acc
      else if (headerGet acc kv.1).isSome then acc
      else acc ++ [kv])
    reqHeader

/-- `redirectHeaders` (api.go lines 237-295): abort after 5 hops; copy
headers (dropping `Authorization` across hosts); update the tracked
endpoint to the redirect target; when an `Authorization` header was
dropped, re-derive the region and re-sign — V2 is a hard failure, V4
re-signs with `getDefaultLocation` of the new endpoint. -/
def redirectHeaders (su : S3Utils) (c : Client) (credsResult : Except GoErr CredValue)
    (req : RequestSnapshot) (via : List RequestSnapshot) : RedirectResult :=
  if via.length ≥ 5 then RedirectResult.failed (GoErr.simple "stopped after 5 redirects")
  else
    match via.getLast? with
    | none => RedirectResult.okRes req.header none
    | some lastRequest =>
      let hostsDiffer := req.host != lastRequest.host
      let reAuth := hostsDiffer && hasHeaderKey lastRequest.header "Authorization"
      let newHeader := copyRedirectHeaders req.header lastRequest.header hostsDiffer
      match credsResult with
      | Except.error e => RedirectResult.failed e
      | Except.ok value =>
        let signerType := effectiveSignerType c.overrideSignerType value
        if reAuth then
          let region := if c.region = "" then su.getRegionFromURL req.urlHost else c.region
          if signerType.IsV2 then
            RedirectResult.failed (GoErr.simple "signature V2 cannot support redirection")
          else if signerType.IsV4 then
            RedirectResult.okRes newHeader (some (getDefaultLocation su req.urlHost region))
          else RedirectResult.okRes newHeader none
        else RedirectResult.okRes newHeader none

/-! ## The retry executor `executeMethod` (api.go lines 966-1100) -/

/-- What the environment does on one attempt of the retry loop:
`newRequest` fails, the transport (`c.do`) fails — with its
`isHTTPReqErrorRetryable` classification attached — or a response comes
back. -/
inductive AttemptOutcome
  | buildErr (e : GoErr)
  | transportErr (e : GoErr) (httpRetryable : Bool)
  | gotResponse (resp : HTTPResponseView)

/-- Environment of one `executeMethod` call: per-attempt outcomes of the
external calls, plus the retry classifiers.  Modelled from the spec: the
classifiers `isS3CodeRetryable` / `isHTTPStatusRetryable` /
`isHTTPReqErrorRetryable` and the retry timer live in a repository file
not under `src/`; §4.5-§4.6 describe them as a retryable-code set, a
retryable-status set, and a timer yielding up to the configured number of
attempts, so they appear here as oracle functions and an attempt budget. -/
structure RetryEnv where
  outcome : Nat → AttemptOutcome
  seekErr : Nat → Option GoErr
  readErr : Nat → Option GoErr
  isS3CodeRetryable : String → Bool
  isHTTPStatusRetryable : Nat → Bool

/-- `successStatus` (api.go lines 222-226). -/
def successStatus : List Nat := [200, 204, 206]

/-- Why the loop body decided to `continue`. -/
inductive RetryReason
  | buildRetry
  | transportRetry
  | regionCorrection
  | s3CodeRetry
  | httpStatusRetry
deriving DecidableEq

/-- Verdict of one iteration of the retry loop: stop with a final
`(res, err)` pair, or continue with updated cache and last-seen values. -/
inductive StepVerdict
  | halt (res : Option HTTPResponseView) (err : Option GoErr)
  | proceed (reason : RetryReason) (cache : BucketLocationCache)
      (lastRes : Option HTTPResponseView) (lastErr : Option GoErr)
deriving DecidableEq

/-- The body of one loop iteration after the seek (api.go lines
1017-1097): build the request, run it, short-circuit on a success status,
read and parse the error body, take the region-correcting retry when all
its conditions hold, else consult the retryable code/status sets, else
break. -/
def execAttempt (c : Client) (env : RetryEnv) (meta : RequestMetadata) (i : Nat)
    (cache : BucketLocationCache) (lastRes : Option HTTPResponseView) : StepVerdict :=
  match env.outcome i with
  | AttemptOutcome.buildErr e =>
    if env.isS3CodeRetryable (ToErrorResponse e).code then
      StepVerdict.proceed RetryReason.buildRetry cache lastRes (some e)
    else StepVerdict.halt none (some e)
  | AttemptOutcome.transportErr e httpRetryable =>
    if httpRetryable then StepVerdict.proceed RetryReason.transportRetry cache none (some e)
    else StepVerdict.halt none (some e)
  | AttemptOutcome.gotResponse resp =>
    if resp.statusCode ∈ successStatus then StepVerdict.halt (some resp) none
    else
      match env.readErr i with
      | some e => StepVerdict.halt none (some e)
      | none =>
        let errResponse := httpRespToErrorResponse resp meta.bucketName meta.objectName
        if meta.bucketLocation = "" ∧ c.region = "" ∧
            (errResponse.code = "AuthorizationHeaderMalformed" ∨ errResponse.code = "InvalidRegion") ∧
            meta.bucketName ≠ "" ∧ errResponse.region ≠ "" ∧
            (cache.get meta.bucketName).isSome then
          StepVerdict.proceed RetryReason.regionCorrection
            (cache.set meta.bucketName errResponse.region) (some resp) none
        else if env.isS3CodeRetryable errResponse.code then
          StepVerdict.proceed RetryReason.s3CodeRetry cache (some resp) none
        else if env.isHTTPStatusRetryable resp.statusCode then
          StepVerdict.proceed RetryReason.httpStatusRetry cache (some resp) none
        else StepVerdict.halt (some resp) none

/-- One full loop iteration including the seek at its head (api.go lines
1009-1015): a retryable body is seeked back to offset 0 before the
attempt, and a failed seek returns immediately. -/
def execStep (c : Client) (env : RetryEnv) (meta : RequestMetadata) (isRetryable : Bool)
    (i : Nat) (cache : BucketLocationCache) (lastRes : Option HTTPResponseView) : StepVerdict :=
  if isRetryable then
    match env.seekErr i with
    | some e => StepVerdict.halt none (some e)
    | none => execAttempt c env meta i cache lastRes
  else execAttempt c env meta i cache lastRes

/-- Final observation of one `executeMethod` call: the returned
`(res, err)` pair. -/
structure ExecOutcome where
  res : Option HTTPResponseView := none
  err : Option GoErr := none
deriving DecidableEq

/-- Trace of one `executeMethod` call: the returned pair, the number of
loop iterations entered, the number of `Seek(0, 0)` calls made, and the
final cache state. -/
structure ExecTrace where
  result : ExecOutcome
  attempts : Nat
  seeks : Nat
  finalCache : BucketLocationCache
deriving DecidableEq

/-- The retry loop (api.go lines 1004-1098), driven by the attempt budget
the retry timer yields.  `i` is the attempt index, the `lastRes`/`lastErr`
accumulators are the function-scoped `res`/`err` named returns, and fuel
exhaustion models the timer running out of attempts. -/
def execLoop (c : Client) (env : RetryEnv) (meta : RequestMetadata) (isRetryable : Bool) :
    Nat → Nat → BucketLocationCache → Option HTTPResponseView → Option GoErr → Nat → ExecTrace
  | 0, i, cache, lastRes, lastErr, seeks =>
    { result := { res := lastRes, err := lastErr }, attempts := i, seeks := seeks,
      finalCache := cache }
  | fuel + 1, i, cache, lastRes, _lastErr, seeks =>
    let seeks2 := cond isRetryable (seeks + 1) seeks
    match execStep c env meta isRetryable i cache lastRes with
    | StepVerdict.halt r e =>
      { result := { res := r, err := e }, attempts := i + 1, seeks := seeks2,
        finalCache := cache }
    | StepVerdict.proceed _ cache2 r2 e2 =>
      execLoop c env meta isRetryable fuel (i + 1) cache2 r2 e2 seeks2

/-- `executeMethod` (api.go lines 969-1100).  Lines 974-993: a body is
retryable exactly when it is an `io.Seeker` other than the three console
streams; a non-retryable non-nil body collapses the budget to 1; a nil
body keeps the configured budget (the whole block is skipped).
`maxRetry` stands for the `MaxRetry` constant, which lives outside
`src/`. -/
def executeMethod (c : Client) (env : RetryEnv) (maxRetry : Nat) (meta : RequestMetadata)
    (cache : BucketLocationCache) : ExecTrace :=
  let isRetryable : Bool :=
    match meta.contentBody with
    | none => false
    | some b => b == ContentBody.seekableBody
  let reqRetry : Nat :=
    match meta.contentBody with
    | none => maxRetry
    | some b => cond (b == ContentBody.seekableBody) maxRetry 1
  execLoop c env meta isRetryable reqRetry 0 cache none none 0

/-! ## Concrete sample values (used to evaluate the theorems on inputs) -/

/-- A neutral `s3utils` instance: nothing is an Amazon endpoint, all names
validate, the path encoder is the identity. -/
def suSample : S3Utils :=
  { isAmazonEndpoint := fun _ => false, isAmazonFIPSEndpoint := fun _ => false,
    isVirtualHostSupported := fun _ _ => false, getRegionFromURL := fun _ => "",
    checkValidBucketName := fun _ => none, checkValidObjectName := fun _ => none,
    encodePath := fun s => s }

/-- An `s3utils` instance that recognizes every endpoint as Amazon. -/
def suAmazon : S3Utils := { suSample with isAmazonEndpoint := fun _ => true }

/-- A plain client against a non-Amazon endpoint. -/
def cSample : Client := { endpointHost := "minio.example.com" }

/-- A client on an Amazon endpoint with transfer acceleration configured. -/
def cAccel : Client :=
  { endpointHost := "s3.amazonaws.com", s3AccelerateEndpoint := "s3-accelerate.amazonaws.com" }

/-- Static V4 credentials. -/
def credsV4 : CredValue :=
  { accessKeyID := "AKID", secretAccessKey := "SECRETKEY",
    signerType := SignatureType.signatureV4 }

/-- Anonymous credentials. -/
def credsAnon : CredValue := { signerType := SignatureType.signatureAnonymous }

/-- Static V2 credentials. -/
def credsV2 : CredValue :=
  { accessKeyID := "AKID", secretAccessKey := "SECRETKEY",
    signerType := SignatureType.signatureV2 }

/-- A 200 response with an empty location-constraint body. -/
def resp200 : HTTPResponseView := { statusCode := 200, locationBody := some "" }

/-- A 500 response parsed as an `InternalError`. -/
def resp500 : HTTPResponseView := { statusCode := 500, errCode := "InternalError" }

/-- A 400 response parsed as a region mismatch pointing at `eu-west-1`. -/
def respAHM : HTTPResponseView :=
  { statusCode := 400, errCode := "AuthorizationHeaderMalformed", errRegion := "eu-west-1" }

/-- Retry environment in which every attempt yields the 500 response and
only status 500 counts as retryable. -/
def envRetry500 : RetryEnv :=
  { outcome := fun _ => AttemptOutcome.gotResponse resp500,
    seekErr := fun _ => none, readErr := fun _ => none,
    isS3CodeRetryable := fun _ => false, isHTTPStatusRetryable := fun s => s == 500 }

/-- Retry environment in which every attempt succeeds with status 200. -/
def envAlways200 : RetryEnv :=
  { outcome := fun _ => AttemptOutcome.gotResponse resp200,
    seekErr := fun _ => none, readErr := fun _ => none,
    isS3CodeRetryable := fun _ => false, isHTTPStatusRetryable := fun _ => false }

/-- Retry environment in which every attempt yields the region-mismatch
response and neither classifier retries. -/
def envAHM : RetryEnv :=
  { outcome := fun _ => AttemptOutcome.gotResponse respAHM,
    seekErr := fun _ => none, readErr := fun _ => none,
    isS3CodeRetryable := fun _ => false, isHTTPStatusRetryable := fun _ => false }

/-- The empty bucket-location cache. -/
def emptyCache : BucketLocationCache := ⟨[]⟩

/-- A cache already holding an entry for bucket `bucket`. -/
def cacheBkt : BucketLocationCache := ⟨[("bucket", "us-east-1")]⟩

/-- Metadata with a nil content body. -/
def metaNilBody : RequestMetadata := {}

/-- Metadata with a seekable (non-console) content body. -/
def metaSeekable : RequestMetadata := { contentBody := some ContentBody.seekableBody }

/-- Metadata with a non-seekable content body. -/
def metaPlainBody : RequestMetadata := { contentBody := some ContentBody.plainReader }

/-- Metadata naming bucket `bucket` with no location override. -/
def metaBkt : RequestMetadata := { bucketName := "bucket" }

/-- A presign request with zero expiry. -/
def metaPresign0 : RequestMetadata :=
  { presignURL := true, bucketName := "bucket", bucketLocation := "us-east-1" }

/-- Credentials environment: anonymous provider, no location fetch. -/
def envAnon : NewReqEnv :=
  { credsResult := Except.ok credsAnon, bucketLocResult := Except.ok "" }

/-- Credentials environment: static V4 provider, no location fetch. -/
def envV4 : NewReqEnv :=
  { credsResult := Except.ok credsV4, bucketLocResult := Except.ok "" }

/-- The host of a `makeTargetURL` result (empty on error). -/
def resultHost : Except GoErr URLView → String
  | Except.ok u => u.host
  | Except.error _ => ""

/-! ## Helper lemmas -/

theorem normalize_ne_empty (s : String) : normalizeLocationConstraint s ≠ "" := by
  unfold normalizeLocationConstraint
  by_cases h1 : s = ""
  · subst h1; decide
  · by_cases h2 : s = "EU"
    · subst h2; decide
    · simp only [h1, h2, if_false, if_neg h1, if_neg h2]
      exact h1

theorem normalize_idem (s : String) :
    normalizeLocationConstraint (normalizeLocationConstraint s) = normalizeLocationConstraint s := by
  unfold normalizeLocationConstraint
  by_cases h1 : s = ""
  · subst h1; decide
  · by_cases h2 : s = "EU"
    · subst h2; decide
    · simp [h1, h2]

/-! ## Claim C4 -/

/-- Claim C4 as frozen speaks of every successful (2xx) response, but
`processBucketLocationResponse` branches on status exactly 200: a 204
response whose body parses to error code `NoSuchBucket` is treated as an
error, not normalized. -/
theorem c4_counterexample :
    processBucketLocationResponse
        { statusCode := 204, errCode := "NoSuchBucket", errRegion := "",
          locationBody := some "ap-south-1" } "bucket" ≠ Except.ok "ap-south-1" ∧
      exceptIsOk (processBucketLocationResponse
        { statusCode := 204, errCode := "NoSuchBucket", errRegion := "",
          locationBody := some "ap-south-1" } "bucket") = false := by
  constructor
  · decide
  · decide

/-- Claim C4 (amended: the normalization applies to responses with status
exactly 200, not to every 2xx status): on a 200 response the decoded
location constraint is normalized — empty to `us-east-1`, `EU` to
`eu-west-1`, anything else unchanged — and the normalization is
idempotent, witnessed by running the source function on its own output. -/
theorem c4_location_normalization_idempotent (s bucketName errCode errRegion : String) :
    processBucketLocationResponse
        { statusCode := 200, errCode := errCode, errRegion := errRegion,
          locationBody := some s } bucketName = Except.ok (normalizeLocationConstraint s) ∧
      normalizeLocationConstraint (normalizeLocationConstraint s) = normalizeLocationConstraint s ∧
      processBucketLocationResponse
        { statusCode := 200, errCode := errCode, errRegion := errRegion,
          locationBody := some (normalizeLocationConstraint s) } bucketName =
        Except.ok (normalizeLocationConstraint s) := by
  refine ⟨?_, normalize_idem s, ?_⟩
  · simp [processBucketLocationResponse]
  · simp [processBucketLocationResponse, normalize_idem s]

/-! ## Claim C5 -/

/-- Claim C5: on every non-2xx response to the get-bucket-location
request, the three region-hint codes succeed with the error's region (or
`us-east-1` when it is empty); every other code fails with the parsed
error. -/
theorem c5_error_region_hint (resp : HTTPResponseView) (bucketName : String)
    (hst : resp.statusCode < 200 ∨ 300 ≤ resp.statusCode) :
    ((resp.errCode = "AuthorizationHeaderMalformed" ∨ resp.errCode = "InvalidRegion" ∨
        resp.errCode = "AccessDenied") →
      processBucketLocationResponse resp bucketName =
        Except.ok (if resp.errRegion = "" then "us-east-1" else resp.errRegion)) ∧
      (¬ (resp.errCode = "AuthorizationHeaderMalformed" ∨ resp.errCode = "InvalidRegion" ∨
          resp.errCode = "AccessDenied") →
        processBucketLocationResponse resp bucketName =
          Except.error (GoErr.errResp (httpRespToErrorResponse resp bucketName ""))) := by
  have hne : resp.statusCode ≠ 200 := by omega
  constructor
  · intro hcode
    simp only [processBucketLocationResponse, httpRespToErrorResponse, if_pos hne]
    rw [if_pos hcode]
    split_ifs <;> rfl
  · intro hcode
    simp only [processBucketLocationResponse, httpRespToErrorResponse, if_pos hne]
    rw [if_neg hcode]

/-- Witness for C5 at a concrete 403 `AccessDenied` response carrying
region `eu-west-1`. -/
theorem c5_error_region_hint_witness :
    processBucketLocationResponse
        { statusCode := 403, errCode := "AccessDenied", errRegion := "eu-west-1",
          locationBody := none } "bucket" = Except.ok "eu-west-1" := by
  have h := (c5_error_region_hint
    { statusCode := 403, errCode := "AccessDenied", errRegion := "eu-west-1",
      locationBody := none } "bucket" (by decide)).1 (by decide)
  exact h

theorem headerGet_mem {l : List (String × String)} {k v : String}
    (h : headerGet l k = some v) : ∃ p ∈ l, p.2 = v := by
  induction l with
  | nil => simp [headerGet] at h
  | cons p rest ih =>
    rw [headerGet] at h
    by_cases hk : p.1 == k
    · rw [if_pos hk] at h
      exact ⟨p, List.mem_cons_self p rest, (Option.some.injEq _ _).mp h.symm |>.symm⟩
    · rw [if_neg (by simpa using hk)] at h
      obtain ⟨q, hq, hv⟩ := ih h
      exact ⟨q, List.mem_cons_of_mem p hq, hv⟩

theorem cacheInvariant_set {cache : BucketLocationCache} {bucketName location : String}
    (hinv : cacheInvariant cache) (hloc : location ≠ "") :
    cacheInvariant (cache.set bucketName location) := by
  intro p hp
  rcases List.mem_cons.mp hp with h | h
  · rw [h]; exact hloc
  · exact hinv p (List.mem_of_mem_filter h)

theorem processOk_ne_empty {resp : HTTPResponseView} {bucketName loc : String}
    (h : processBucketLocationResponse resp bucketName = Except.ok loc) : loc ≠ "" := by
  by_cases h1 : resp.statusCode ≠ 200
  · simp only [processBucketLocationResponse, if_pos h1, httpRespToErrorResponse] at h
    split_ifs at h with h2 h3
    · cases h; decide
    · cases h; exact h3
  · simp only [processBucketLocationResponse, if_neg h1] at h
    cases hlb : resp.locationBody with
    | none => rw [hlb] at h; cases h
    | some s =>
      rw [hlb] at h
      cases h
      exact normalize_ne_empty s

theorem execAttempt_cache_invariant {c : Client} {env : RetryEnv} {meta : RequestMetadata}
    {i : Nat} {cache : BucketLocationCache} {lastRes : Option HTTPResponseView}
    {reason : RetryReason} {cache2 : BucketLocationCache} {r2 : Option HTTPResponseView}
    {e2 : Option GoErr}
    (hinv : cacheInvariant cache)
    (h : execAttempt c env meta i cache lastRes = StepVerdict.proceed reason cache2 r2 e2) :
    cacheInvariant cache2 := by
  cases ho : env.outcome i with
  | buildErr e =>
    simp only [execAttempt, ho] at h
    split_ifs at h
    cases h; exact hinv
  | transportErr e httpRetryable =>
    simp only [execAttempt, ho] at h
    split_ifs at h
    cases h; exact hinv
  | gotResponse resp =>
    simp only [execAttempt, ho, httpRespToErrorResponse] at h
    by_cases hs : resp.statusCode ∈ successStatus
    · rw [if_pos hs] at h; cases h
    · rw [if_neg hs] at h
      cases hre : env.readErr i with
      | some e => rw [hre] at h; cases h
      | none =>
        rw [hre] at h
        split_ifs at h with hcond h2 h3
        · cases h
          exact cacheInvariant_set hinv hcond.2.2.2.2.1
        · cases h; exact hinv
        · cases h; exact hinv

theorem execStep_cache_invariant {c : Client} {env : RetryEnv} {meta : RequestMetadata}
    {isRetryable : Bool} {i : Nat} {cache : BucketLocationCache}
    {lastRes : Option HTTPResponseView} {reason : RetryReason}
    {cache2 : BucketLocationCache} {r2 : Option HTTPResponseView} {e2 : Option GoErr}
    (hinv : cacheInvariant cache)
    (h : execStep c env meta isRetryable i cache lastRes = StepVerdict.proceed reason cache2 r2 e2) :
    cacheInvariant cache2 := by
  rw [execStep] at h
  cases isRetryable with
  | false =>
    rw [if_neg (by simp)] at h
    exact execAttempt_cache_invariant hinv h
  | true =>
    rw [if_pos rfl] at h
    cases hse : env.seekErr i with
    | some e => rw [hse] at h; cases h
    | none =>
      rw [hse] at h
      exact execAttempt_cache_invariant hinv h

/-! ## Claim C8 -/

/-- Claim C8: every successful region resolution returns a non-empty
region — `getDefaultLocation` always, `processBucketLocationResponse` on
success, and `getBucketLocation` on success (given that cached regions
are non-empty) — and both cache-writing sites (`getBucketLocation` and
the region-correcting retry inside the loop step) preserve the
all-values-non-empty cache invariant. -/
theorem c8_nonempty_region_invariant :
    (∀ (su : S3Utils) (uHost regionOverride : String),
      getDefaultLocation su uHost regionOverride ≠ "") ∧
      (∀ (resp : HTTPResponseView) (bucketName loc : String),
        processBucketLocationResponse resp bucketName = Except.ok loc → loc ≠ "") ∧
      (∀ (su : S3Utils) (c : Client) (netResult : Except GoErr HTTPResponseView)
          (cache : BucketLocationCache) (bucketName loc : String) (cache2 : BucketLocationCache),
        cacheInvariant cache →
        getBucketLocation su c netResult cache bucketName = Except.ok (loc, cache2) →
        loc ≠ "" ∧ cacheInvariant cache2) ∧
      (∀ (c : Client) (env : RetryEnv) (meta : RequestMetadata) (isRetryable : Bool) (i : Nat)
          (cache : BucketLocationCache) (lastRes : Option HTTPResponseView)
          (reason : RetryReason) (cache2 : BucketLocationCache)
          (r2 : Option HTTPResponseView) (e2 : Option GoErr),
        cacheInvariant cache →
        execStep c env meta isRetryable i cache lastRes =
          StepVerdict.proceed reason cache2 r2 e2 →
        cacheInvariant cache2) := by
  refine ⟨?_, ?_, ?_, ?_⟩
  · intro su uHost regionOverride
    simp only [getDefaultLocation]
    split_ifs with h1 h2
    · exact h1
    · decide
    · exact h2
  · intro resp bucketName loc h
    exact processOk_ne_empty h
  · intro su c netResult cache bucketName loc cache2 hinv h
    cases hcv : su.checkValidBucketName bucketName with
    | some e => simp only [getBucketLocation, hcv] at h; cases h
    | none =>
      simp only [getBucketLocation, hcv] at h
      split_ifs at h with hr
      · cases h; exact ⟨hr, hinv⟩
      · cases hget : cache.get bucketName with
        | some location =>
          simp only [hget] at h
          cases h
          obtain ⟨p, hp, hv⟩ := headerGet_mem hget
          exact ⟨hv ▸ hinv p hp, hinv⟩
        | none =>
          simp only [hget] at h
          cases netResult with
          | error e => simp only [] at h; cases h
          | ok resp =>
            cases hproc : processBucketLocationResponse resp bucketName with
            | error e => simp only [hproc] at h; cases h
            | ok location =>
              simp only [hproc] at h
              cases h
              have hne := processOk_ne_empty hproc
              exact ⟨hne, cacheInvariant_set hinv hne⟩
  · intro c env meta isRetryable i cache lastRes reason cache2 r2 e2 hinv h
    exact execStep_cache_invariant hinv h

/-- Witness for C8: a cache-hit resolution on a cache satisfying the
invariant returns the cached non-empty region and preserves the
invariant. -/
theorem c8_nonempty_region_invariant_witness :
    ("us-east-1" : String) ≠ "" ∧ cacheInvariant cacheBkt :=
  c8_nonempty_region_invariant.2.2.1 suSample { endpointHost := "h" }
    (Except.error (GoErr.simple "unused")) cacheBkt "bucket" "us-east-1" cacheBkt
    (by intro p hp
        have hp2 : p = ("bucket", "us-east-1") := by simpa [cacheBkt] using hp
        rw [hp2]
        decide)
    (by decide)

/-! ## Claim C6 -/

/-- Claim C6 as frozen says a successful accelerate-target URL has the
accelerate endpoint as its host; under virtual-host style the bucket name
is prepended as a subdomain, so the host differs from the accelerate
endpoint. -/
theorem c6_counterexample :
    resultHost (makeTargetURL suAmazon cAccel "bucket" "" "us-east-1" true []) =
        "bucket.s3-accelerate.amazonaws.com" ∧
      ("bucket.s3-accelerate.amazonaws.com" : String) ≠ "s3-accelerate.amazonaws.com" := by
  constructor
  · decide
  · decide

/-- Claim C6 (amended: the host is derived from the accelerate endpoint —
default port stripped — with the bucket name prepended as a subdomain
under virtual-host style): on a recognized Amazon endpoint with a
configured accelerate endpoint and a non-empty bucket, a dotted bucket
name fails with `ErrTransferAccelerationBucket`, and any other name
succeeds with the accelerate-based host. -/
theorem c6_accelerate_endpoint (su : S3Utils) (c : Client)
    (bucketName objectName bucketLocation : String) (vh : Bool)
    (qv : List (String × String))
    (hamz : su.isAmazonEndpoint c.endpointHost = true)
    (hacc : c.s3AccelerateEndpoint ≠ "") (hbn : bucketName ≠ "") :
    (('.') ∈ bucketName.data →
      makeTargetURL su c bucketName objectName bucketLocation vh qv =
        Except.error (ErrTransferAccelerationBucket bucketName)) ∧
      (('.') ∉ bucketName.data →
        makeTargetURL su c bucketName objectName bucketLocation vh qv =
          Except.ok (buildTargetURL su c.endpointScheme c.s3AccelerateEndpoint bucketName
            objectName vh qv) ∧
        (buildTargetURL su c.endpointScheme c.s3AccelerateEndpoint bucketName objectName
            vh qv).host =
          (if vh then bucketName ++ "." ++ stripDefaultPort c.endpointScheme c.s3AccelerateEndpoint
           else stripDefaultPort c.endpointScheme c.s3AccelerateEndpoint)) := by
  constructor
  · intro hdot
    simp only [makeTargetURL, if_pos hamz, if_pos (And.intro hacc hbn), if_pos hdot]
  · intro hdot
    constructor
    · simp only [makeTargetURL, if_pos hamz, if_pos (And.intro hacc hbn), if_neg hdot]
    · cases vh <;> simp [buildTargetURL, hbn]

/-- Witness for C6 at the concrete accelerate client, path style. -/
theorem c6_accelerate_endpoint_witness :
    makeTargetURL suAmazon cAccel "bucket" "" "us-east-1" false [] =
        Except.ok (buildTargetURL suAmazon "https" "s3-accelerate.amazonaws.com" "bucket" ""
          false []) ∧
      (buildTargetURL suAmazon "https" "s3-accelerate.amazonaws.com" "bucket" "" false []).host =
        (if false = true then "bucket" ++ "." ++ stripDefaultPort "https" "s3-accelerate.amazonaws.com"
         else stripDefaultPort "https" "s3-accelerate.amazonaws.com") :=
  (c6_accelerate_endpoint suAmazon cAccel "bucket" "" "us-east-1" false [] rfl
    (by decide) (by decide)).2 (by decide)

theorem execLoop_attempts_le (c : Client) (env : RetryEnv) (meta : RequestMetadata)
    (isRetryable : Bool) :
    ∀ (fuel i : Nat) (cache : BucketLocationCache) (lastRes : Option HTTPResponseView)
      (lastErr : Option GoErr) (seeks : Nat),
      (execLoop c env meta isRetryable fuel i cache lastRes lastErr seeks).attempts ≤ i + fuel := by
  intro fuel
  induction fuel with
  | zero => intro i cache lastRes lastErr seeks; simp [execLoop]
  | succ n ih =>
    intro i cache lastRes lastErr seeks
    rw [execLoop]
    cases hstep : execStep c env meta isRetryable i cache lastRes with
    | halt r e => simp only []; omega
    | proceed reason cache2 r2 e2 =>
      simp only []
      have := ih (i + 1) cache2 r2 e2 (cond isRetryable (seeks + 1) seeks)
      omega

theorem execLoop_attempts_one (c : Client) (env : RetryEnv) (meta : RequestMetadata)
    (isRetryable : Bool) (i : Nat) (cache : BucketLocationCache)
    (lastRes : Option HTTPResponseView) (lastErr : Option GoErr) (seeks : Nat) :
    (execLoop c env meta isRetryable 1 i cache lastRes lastErr seeks).attempts = i + 1 := by
  rw [execLoop]
  cases hstep : execStep c env meta isRetryable i cache lastRes with
  | halt r e => rfl
  | proceed reason cache2 r2 e2 => rfl

theorem execLoop_seeks_eq_attempts (c : Client) (env : RetryEnv) (meta : RequestMetadata) :
    ∀ (fuel i : Nat) (cache : BucketLocationCache) (lastRes : Option HTTPResponseView)
      (lastErr : Option GoErr) (seeks : Nat),
      (execLoop c env meta true fuel i cache lastRes lastErr seeks).attempts + seeks =
        (execLoop c env meta true fuel i cache lastRes lastErr seeks).seeks + i := by
  intro fuel
  induction fuel with
  | zero => intro i cache lastRes lastErr seeks; simp [execLoop, Nat.add_comm]
  | succ n ih =>
    intro i cache lastRes lastErr seeks
    rw [execLoop]
    cases hstep : execStep c env meta true i cache lastRes with
    | halt r e => simp only [cond_true]; omega
    | proceed reason cache2 r2 e2 =>
      simp only [cond_true]
      have := ih (i + 1) cache2 r2 e2 (seeks + 1)
      omega

theorem execLoop_seeks_const (c : Client) (env : RetryEnv) (meta : RequestMetadata) :
    ∀ (fuel i : Nat) (cache : BucketLocationCache) (lastRes : Option HTTPResponseView)
      (lastErr : Option GoErr) (seeks : Nat),
      (execLoop c env meta false fuel i cache lastRes lastErr seeks).seeks = seeks := by
  intro fuel
  induction fuel with
  | zero => intro i cache lastRes lastErr seeks; rfl
  | succ n ih =>
    intro i cache lastRes lastErr seeks
    rw [execLoop]
    cases hstep : execStep c env meta false i cache lastRes with
    | halt r e => simp only [cond_false]
    | proceed reason cache2 r2 e2 =>
      simp only [cond_false]
      exact ih (i + 1) cache2 r2 e2 seeks

/-! ## Claim C1 -/

/-- Claim C1 as frozen fails on two points.  First, a nil `contentBody`
also "does not implement a seek capability", yet lines 974-993 skip the
whole seekability block for it, leaving the full retry budget: with a
retryable 500 response and budget 3, a nil-body call is attempted 3
times, not once.  Second, the §4.5 phrasing "seeked only before every
attempt after the first" is wrong: a seekable body that succeeds on the
very first attempt has already been seeked once. -/
theorem c1_counterexample :
    (executeMethod cSample envRetry500 3 metaNilBody emptyCache).attempts = 3 ∧
      (executeMethod cSample envAlways200 3 metaSeekable emptyCache).attempts = 1 ∧
      (executeMethod cSample envAlways200 3 metaSeekable emptyCache).seeks = 1 := by
  refine ⟨?_, ?_, ?_⟩
  · decide
  · decide
  · decide

/-- Claim C1 (amended: a call with a *non-nil* non-seekable or console
body is attempted exactly once regardless of the configured maximum; a
nil-body call keeps the full budget and is never seeked; a seekable body
is attempted up to the configured maximum with one seek to offset 0
before *every* attempt including the first, and a failed seek aborts the
call immediately). -/
theorem c1_retry_seek_discipline (c : Client) (env : RetryEnv) (maxRetry : Nat)
    (meta : RequestMetadata) (cache : BucketLocationCache) :
    ((meta.contentBody = some ContentBody.plainReader ∨
        meta.contentBody = some ContentBody.stdConsole) →
      (executeMethod c env maxRetry meta cache).attempts = 1) ∧
      (meta.contentBody = none →
        (executeMethod c env maxRetry meta cache).attempts ≤ maxRetry ∧
        (executeMethod c env maxRetry meta cache).seeks = 0) ∧
      (meta.contentBody = some ContentBody.seekableBody →
        (executeMethod c env maxRetry meta cache).attempts ≤ maxRetry ∧
        (executeMethod c env maxRetry meta cache).seeks =
          (executeMethod c env maxRetry meta cache).attempts ∧
        (∀ e, env.seekErr 0 = some e → 1 ≤ maxRetry →
          executeMethod c env maxRetry meta cache =
            { result := { res := none, err := some e }, attempts := 1, seeks := 1,
              finalCache := cache })) := by
  refine ⟨?_, ?_, ?_⟩
  · intro hbody
    rcases hbody with hbody | hbody <;>
      simp only [executeMethod, hbody] <;>
      exact execLoop_attempts_one c env meta _ 0 cache none none 0
  · intro hbody
    simp only [executeMethod, hbody]
    constructor
    · have := execLoop_attempts_le c env meta false maxRetry 0 cache none none 0
      omega
    · exact execLoop_seeks_const c env meta maxRetry 0 cache none none 0
  · intro hbody
    simp only [executeMethod, hbody, beq_self_eq_true, cond_true]
    refine ⟨?_, ?_, ?_⟩
    · have := execLoop_attempts_le c env meta true maxRetry 0 cache none none 0
      omega
    · have := execLoop_seeks_eq_attempts c env meta maxRetry 0 cache none none 0
      omega
    · intro e hseek hmax
      obtain ⟨m, rfl⟩ : ∃ m, maxRetry = m + 1 := ⟨maxRetry - 1, by omega⟩
      have hstep : execStep c env meta true 0 cache none = StepVerdict.halt none (some e) := by
        rw [execStep, if_pos rfl, hseek]
      rw [execLoop]
      simp only [hstep, cond_true]

/-- Witness for C1: a non-seekable body is attempted exactly once even
with budget 3 and a retryable failure. -/
theorem c1_retry_seek_discipline_witness :
    (executeMethod cSample envRetry500 3 metaPlainBody emptyCache).attempts = 1 :=
  (c1_retry_seek_discipline cSample envRetry500 3 metaPlainBody emptyCache).1 (Or.inl rfl)

/-! ## Claim C2 -/

/-- Claim C2: in a loop iteration that reached error parsing (a response
arrived, its status is not a success status, the body read succeeded, and
the seek — if any — succeeded), the region-correcting retry fires exactly
when the six listed conditions hold, overwriting the cache entry with the
error's region; and when it fires, the loop continues into the next
attempt (consuming one unit of fuel, i.e. counting against the attempt
budget). -/
theorem c2_region_correction_retry (c : Client) (env : RetryEnv) (meta : RequestMetadata)
    (isRetryable : Bool) (i : Nat) (cache : BucketLocationCache)
    (lastRes : Option HTTPResponseView) (resp : HTTPResponseView)
    (ho : env.outcome i = AttemptOutcome.gotResponse resp)
    (hs : resp.statusCode ∉ successStatus)
    (hread : env.readErr i = none)
    (hseek : env.seekErr i = none) :
    ((execStep c env meta isRetryable i cache lastRes =
        StepVerdict.proceed RetryReason.regionCorrection
          (cache.set meta.bucketName resp.errRegion) (some resp) none) ↔
      (meta.bucketLocation = "" ∧ c.region = "" ∧
        (resp.errCode = "AuthorizationHeaderMalformed" ∨ resp.errCode = "InvalidRegion") ∧
        meta.bucketName ≠ "" ∧ resp.errRegion ≠ "" ∧
        (cache.get meta.bucketName).isSome = true)) ∧
      ((meta.bucketLocation = "" ∧ c.region = "" ∧
          (resp.errCode = "AuthorizationHeaderMalformed" ∨ resp.errCode = "InvalidRegion") ∧
          meta.bucketName ≠ "" ∧ resp.errRegion ≠ "" ∧
          (cache.get meta.bucketName).isSome = true) →
        ∀ (fuel seeks : Nat) (lastErr : Option GoErr),
          execLoop c env meta isRetryable (fuel + 1) i cache lastRes lastErr seeks =
            execLoop c env meta isRetryable fuel (i + 1)
              (cache.set meta.bucketName resp.errRegion) (some resp) none
              (cond isRetryable (seeks + 1) seeks)) := by
  have hstepeq : execStep c env meta isRetryable i cache lastRes =
      execAttempt c env meta i cache lastRes := by
    cases isRetryable with
    | false => rw [execStep, if_neg (by simp)]
    | true => rw [execStep, if_pos rfl, hseek]
  have hattempt : execAttempt c env meta i cache lastRes =
      (if meta.bucketLocation = "" ∧ c.region = "" ∧
          (resp.errCode = "AuthorizationHeaderMalformed" ∨ resp.errCode = "InvalidRegion") ∧
          meta.bucketName ≠ "" ∧ resp.errRegion ≠ "" ∧
          (cache.get meta.bucketName).isSome = true then
        StepVerdict.proceed RetryReason.regionCorrection
          (cache.set meta.bucketName resp.errRegion) (some resp) none
      else if env.isS3CodeRetryable resp.errCode = true then
        StepVerdict.proceed RetryReason.s3CodeRetry cache (some resp) none
      else if env.isHTTPStatusRetryable resp.statusCode = true then
        StepVerdict.proceed RetryReason.httpStatusRetry cache (some resp) none
      else StepVerdict.halt (some resp) none) := by
    simp only [execAttempt, ho, httpRespToErrorResponse, if_neg hs, hread]
  constructor
  · rw [hstepeq, hattempt]
    constructor
    · intro h
      by_cases hcond : meta.bucketLocation = "" ∧ c.region = "" ∧
          (resp.errCode = "AuthorizationHeaderMalformed" ∨ resp.errCode = "InvalidRegion") ∧
          meta.bucketName ≠ "" ∧ resp.errRegion ≠ "" ∧
          (cache.get meta.bucketName).isSome = true
      · exact hcond
      · rw [if_neg hcond] at h
        split_ifs at h <;> cases h
    · intro hcond
      rw [if_pos hcond]
  · intro hcond fuel seeks lastErr
    rw [execLoop, hstepeq, hattempt, if_pos hcond]

/-- Witness for C2: the region-correcting retry fires at a concrete 400
`AuthorizationHeaderMalformed` response carrying `eu-west-1` for a bucket
that already has a cache entry, on a client with no fixed region. -/
theorem c2_region_correction_retry_witness :
    execStep { endpointHost := "h" } envAHM metaBkt false 0 cacheBkt none =
      StepVerdict.proceed RetryReason.regionCorrection
        (cacheBkt.set "bucket" "eu-west-1") (some respAHM) none :=
  ((c2_region_correction_retry { endpointHost := "h" } envAHM metaBkt false 0 cacheBkt none
    respAHM rfl (by decide) rfl rfl).1).mpr (by decide)

theorem buildTargetURL_query (su : S3Utils) (scheme host0 bucketName objectName : String)
    (vh : Bool) (qv : List (String × String)) :
    (buildTargetURL su scheme host0 bucketName objectName vh qv).query = qv := by
  simp only [buildTargetURL]
  split_ifs <;> rfl

theorem makeTargetURL_ok (su : S3Utils) (c : Client)
    (bucketName objectName bucketLocation : String) (vh : Bool)
    (qv : List (String × String))
    (h : su.isAmazonEndpoint c.endpointHost = false ∨ c.s3AccelerateEndpoint = "" ∨
      ('.') ∉ bucketName.data) :
    ∃ u, makeTargetURL su c bucketName objectName bucketLocation vh qv = Except.ok u ∧
      u.query = qv := by
  simp only [makeTargetURL]
  by_cases ha : su.isAmazonEndpoint c.endpointHost = true
  · rw [if_pos ha]
    by_cases hb : c.s3AccelerateEndpoint ≠ "" ∧ bucketName ≠ ""
    · rw [if_pos hb]
      have hdot : ('.') ∉ bucketName.data := by
        rcases h with h | h | h
        · rw [ha] at h; cases h
        · exact absurd h hb.1
        · exact h
      rw [if_neg hdot]
      exact ⟨_, rfl, buildTargetURL_query su c.endpointScheme c.s3AccelerateEndpoint
        bucketName objectName vh qv⟩
    · rw [if_neg hb]
      split_ifs
      · exact ⟨_, rfl, buildTargetURL_query su c.endpointScheme c.endpointHost
          bucketName objectName vh qv⟩
      · exact ⟨_, rfl, buildTargetURL_query su c.endpointScheme
          (getS3Endpoint bucketLocation) bucketName objectName vh qv⟩
  · rw [if_neg ha]
    exact ⟨_, rfl, buildTargetURL_query su c.endpointScheme c.endpointHost
      bucketName objectName vh qv⟩

theorem finishRequest_ok_url (c : Client) (metadata : RequestMetadata) (v : CredValue)
    (st : SignatureType) (location : String) (vh : Bool) (method : String)
    (req : RequestView) :
    ∃ r, finishRequest c metadata v st location vh method req = Except.ok r ∧
      r.url = req.url := by
  simp only [finishRequest]
  split_ifs <;> exact ⟨_, rfl, rfl⟩

/-! ## Claim C3 -/

/-- Claim C3 as frozen says an anonymous presign request fails for *any*
expiry value; line 832 guards the presign path with `expires != 0`, so a
presign request with zero expiry and anonymous credentials falls through
to the normal path and succeeds. -/
theorem c3_counterexample :
    exceptIsOk (newRequest suSample cSample envAnon "PUT" metaPresign0) = true ∧
      newRequest suSample cSample envAnon "PUT" metaPresign0 ≠
        Except.error (ErrInvalidArgument
          "Presigned URLs cannot be generated with anonymous credentials.") := by
  constructor
  · decide
  · decide

/-- Claim C3 (amended: the anonymous rejection applies to presign
requests with *non-zero* expiry): with non-zero expiry and the presign
flag set, an anonymous effective signer makes `newRequest` fail with
`ErrInvalidArgument`, and a non-anonymous signer yields a V2 or V4
query-string-presigned request returned directly — no body attached and
no headers (hence no header signing) on it. -/
theorem c3_presign_anonymous_rejection (su : S3Utils) (c : Client) (env : NewReqEnv)
    (method0 : String) (meta : RequestMetadata) (v : CredValue) (loc : String)
    (hpre : meta.presignURL = true) (hexp : meta.expires ≠ 0)
    (hcred : env.credsResult = Except.ok v)
    (hloc : resolveLocation su c env meta = Except.ok loc)
    (hmk : su.isAmazonEndpoint c.endpointHost = false ∨ c.s3AccelerateEndpoint = "" ∨
      ('.') ∉ meta.bucketName.data) :
    ((effectiveSignerType c.overrideSignerType v).IsAnonymous = true →
      newRequest su c env method0 meta = Except.error (ErrInvalidArgument
        "Presigned URLs cannot be generated with anonymous credentials.")) ∧
      ((effectiveSignerType c.overrideSignerType v).IsAnonymous = false →
        ∃ r, newRequest su c env method0 meta = Except.ok r ∧
          ((∃ e vh, r.signing = SigningApplied.preSignV2 e vh) ∨
            (∃ l e, r.signing = SigningApplied.preSignV4 l e)) ∧
          r.body = none ∧ r.header = []) := by
  obtain ⟨u, hu, hq⟩ := makeTargetURL_ok su c meta.bucketName meta.objectName loc
    (isVirtualHostStyleRequest su c c.endpointHost meta.bucketName &&
      !((meta.objectName == "") && ((if method0 = "" then "POST" else method0) == "PUT") &&
        (meta.queryValues.length == 0)))
    meta.queryValues hmk
  constructor
  · intro hanon
    cases hst : effectiveSignerType c.overrideSignerType v with
    | signatureAnonymous =>
      simp only [newRequest, hloc, hcred, hu, hst, if_pos (And.intro hexp hpre)]
      rfl
    | signatureDefault => rw [hst] at hanon; cases hanon
    | signatureV2 => rw [hst] at hanon; cases hanon
    | signatureV4 => rw [hst] at hanon; cases hanon
  · intro hanon
    cases hst : effectiveSignerType c.overrideSignerType v with
    | signatureAnonymous => rw [hst] at hanon; cases hanon
    | signatureV2 =>
      simp only [newRequest, hloc, hcred, hu, hst, if_pos (And.intro hexp hpre)]
      exact ⟨_, rfl, Or.inl ⟨meta.expires, _, rfl⟩, rfl, rfl⟩
    | signatureDefault =>
      simp only [newRequest, hloc, hcred, hu, hst, if_pos (And.intro hexp hpre)]
      exact ⟨_, rfl, Or.inr ⟨loc, meta.expires, rfl⟩, rfl, rfl⟩
    | signatureV4 =>
      simp only [newRequest, hloc, hcred, hu, hst, if_pos (And.intro hexp hpre)]
      exact ⟨_, rfl, Or.inr ⟨loc, meta.expires, rfl⟩, rfl, rfl⟩

/-- A presign request with one-hour expiry. -/
def metaPresign1 : RequestMetadata :=
  { presignURL := true, expires := 3600, bucketName := "bucket",
    bucketLocation := "us-east-1" }

/-- Witness for C3: a non-anonymous presign request with non-zero expiry
succeeds (query-string signed, returned directly). -/
theorem c3_presign_anonymous_rejection_witness :
    exceptIsOk (newRequest suSample cSample envV4 "PUT" metaPresign1) = true := by
  obtain ⟨r, hr, _⟩ := (c3_presign_anonymous_rejection suSample cSample envV4 "PUT"
    metaPresign1 credsV4 "us-east-1" rfl (by decide) rfl (by decide)
    (Or.inl rfl)).2 (by decide)
  rw [hr]
  rfl

theorem tdiv_nanos_eq_zero {d : Int} (h0 : 0 ≤ d) (h1 : d < 1000000000) :
    Int.tdiv d 1000000000 = 0 := by
  obtain ⟨n, rfl⟩ := Int.eq_ofNat_of_zero_le h0
  have hn : n < 1000000000 := by exact_mod_cast h1
  have h2 : ((n / 1000000000 : Nat) : Int) = Int.tdiv (n : Int) ((1000000000 : Nat) : Int) :=
    Int.ofNat_tdiv n 1000000000
  rw [Nat.div_eq_of_lt hn] at h2
  exact h2.symm

theorem newRequest_presign_query (su : S3Utils) (c : Client) (env : NewReqEnv)
    (method0 : String) (meta : RequestMetadata) (v : CredValue) (loc : String)
    (hcred : env.credsResult = Except.ok v)
    (hloc : resolveLocation su c env meta = Except.ok loc)
    (hmk : su.isAmazonEndpoint c.endpointHost = false ∨ c.s3AccelerateEndpoint = "" ∨
      ('.') ∉ meta.bucketName.data) :
    (¬ (meta.expires ≠ 0 ∧ meta.presignURL = true) →
      ∃ r, newRequest su c env method0 meta = Except.ok r ∧
        r.url.query = meta.queryValues) ∧
      ((meta.expires ≠ 0 ∧ meta.presignURL = true ∧
          (effectiveSignerType c.overrideSignerType v).IsAnonymous = false) →
        ∃ r, newRequest su c env method0 meta = Except.ok r ∧
          ∀ p ∈ meta.queryValues, p ∈ r.url.query) := by
  obtain ⟨u, hu, hq⟩ := makeTargetURL_ok su c meta.bucketName meta.objectName loc
    (isVirtualHostStyleRequest su c c.endpointHost meta.bucketName &&
      !((meta.objectName == "") && ((if method0 = "" then "POST" else method0) == "PUT") &&
        (meta.queryValues.length == 0)))
    meta.queryValues hmk
  constructor
  · intro hnp
    simp only [newRequest, hloc, hcred, hu, if_neg hnp]
    obtain ⟨r, hr, hurl⟩ := finishRequest_ok_url c meta v
      (effectiveSignerType c.overrideSignerType v) loc
      (isVirtualHostStyleRequest su c c.endpointHost meta.bucketName &&
        !((meta.objectName == "") && ((if method0 = "" then "POST" else method0) == "PUT") &&
          (meta.queryValues.length == 0)))
      (if method0 = "" then "POST" else method0)
      { method := if method0 = "" then "POST" else method0, url := u, header := [] }
    refine ⟨r, hr, ?_⟩
    rw [hurl]
    exact hq
  · intro hcond
    obtain ⟨hexp, hpre, hanon⟩ := hcond
    cases hst : effectiveSignerType c.overrideSignerType v with
    | signatureAnonymous => rw [hst] at hanon; cases hanon
    | signatureV2 =>
      simp only [newRequest, hloc, hcred, hu, hst, if_pos (And.intro hexp hpre)]
      refine ⟨_, rfl, ?_⟩
      intro p hp
      have hpu : p ∈ u.query := by rw [hq]; exact hp
      simp [preSignV2Fn, List.mem_append, hpu]
    | signatureDefault =>
      simp only [newRequest, hloc, hcred, hu, hst, if_pos (And.intro hexp hpre)]
      refine ⟨_, rfl, ?_⟩
      intro p hp
      have hpu : p ∈ u.query := by rw [hq]; exact hp
      simp [preSignV4Fn, List.mem_append, hpu]
    | signatureV4 =>
      simp only [newRequest, hloc, hcred, hu, hst, if_pos (And.intro hexp hpre)]
      refine ⟨_, rfl, ?_⟩
      intro p hp
      have hpu : p ∈ u.query := by rw [hq]; exact hp
      simp [preSignV4Fn, List.mem_append, hpu]

/-! ## Claim C9 -/

/-- Claim C9: `GenUploadPartSignedUrl` rejects an oversized or negative
size, a non-positive part number, and an empty upload id (on top of name
validation); and for valid inputs — non-anonymous credentials, positive
expiry, a resolvable location — the produced URL's query carries the
`partNumber` and `uploadId` parameters. -/
theorem c9_gen_upload_part_signed_url (su : S3Utils) (c : Client) (env : NewReqEnv)
    (uploadID bucketName objectName : String) (partNumber size expires : Int)
    (bucketLocation : String) (v : CredValue) :
    ((size > maxPartSize ∨ size ≤ -1 ∨ partNumber ≤ 0 ∨ uploadID = "") →
      exceptIsOk (GenUploadPartSignedUrl su c env uploadID bucketName objectName
        partNumber size expires bucketLocation) = false) ∧
      (su.checkValidBucketName bucketName = none →
        su.checkValidObjectName objectName = none →
        size ≤ maxPartSize → -1 < size → 0 < partNumber → uploadID ≠ "" →
        bucketLocation ≠ "" →
        env.credsResult = Except.ok v →
        (effectiveSignerType c.overrideSignerType v).IsAnonymous = false →
        0 < expires →
        (su.isAmazonEndpoint c.endpointHost = false ∨ c.s3AccelerateEndpoint = "" ∨
          ('.') ∉ bucketName.data) →
        exceptIsOk (GenUploadPartSignedUrl su c env uploadID bucketName objectName
            partNumber size expires bucketLocation) = true ∧
          ("partNumber", toString partNumber) ∈ resultQuery (GenUploadPartSignedUrl su c env
            uploadID bucketName objectName partNumber size expires bucketLocation) ∧
          ("uploadId", uploadID) ∈ resultQuery (GenUploadPartSignedUrl su c env
            uploadID bucketName objectName partNumber size expires bucketLocation)) := by
  constructor
  · intro hdisj
    cases hcb : su.checkValidBucketName bucketName with
    | some e => simp only [GenUploadPartSignedUrl, hcb]; rfl
    | none =>
      cases hco : su.checkValidObjectName objectName with
      | some e => simp only [GenUploadPartSignedUrl, hcb, hco]; rfl
      | none =>
        simp only [GenUploadPartSignedUrl, hcb, hco]
        split_ifs with h1 h2 h3 h4
        · rfl
        · rfl
        · rfl
        · rfl
        · rcases hdisj with h | h | h | h
          · exact absurd h h1
          · exact absurd h h2
          · exact absurd h h3
          · exact absurd h h4
  · intro hcb hco hs1 hs2 hs3 hs4 hbl hcred hanon _hexp hmk
    have hrl : resolveLocation su c env
        { presignURL := true, bucketName := bucketName, objectName := objectName,
          queryValues := [("partNumber", toString partNumber), ("uploadId", uploadID)],
          customHeader := [], contentLength := size,
          expires := Int.tdiv expires 1000000000, bucketLocation := bucketLocation } =
        Except.ok bucketLocation := by
      simp only [resolveLocation]
      rw [if_neg hbl]
    have hnp := newRequest_presign_query su c env "PUT"
      { presignURL := true, bucketName := bucketName, objectName := objectName,
        queryValues := [("partNumber", toString partNumber), ("uploadId", uploadID)],
        customHeader := [], contentLength := size,
        expires := Int.tdiv expires 1000000000, bucketLocation := bucketLocation }
      v bucketLocation hcred hrl hmk
    simp only [GenUploadPartSignedUrl, hcb, hco, if_neg (not_lt.mpr hs1),
      if_neg (not_le.mpr hs2), if_neg (not_le.mpr hs3), if_neg hs4]
    by_cases h0 : Int.tdiv expires 1000000000 = 0
    · obtain ⟨r, hr, hq⟩ := hnp.1 (fun hc => hc.1 h0)
      rw [hr]
      refine ⟨rfl, ?_, ?_⟩
      · rw [resultQuery, hq]; simp
      · rw [resultQuery, hq]; simp
    · obtain ⟨r, hr, hmem⟩ := hnp.2 ⟨h0, rfl, hanon⟩
      rw [hr]
      refine ⟨rfl, ?_, ?_⟩
      · rw [resultQuery]; exact hmem _ (by simp)
      · rw [resultQuery]; exact hmem _ (by simp)

/-- Witness for C9 at the spec's end-to-end example (location supplied as
the already-resolved default region). -/
theorem c9_gen_upload_part_signed_url_witness :
    exceptIsOk (GenUploadPartSignedUrl suSample cSample envV4 "upload-1" "my-bucket"
        "key.bin" 3 1024 3600000000000 "us-east-1") = true ∧
      ("partNumber", toString (3 : Int)) ∈ resultQuery (GenUploadPartSignedUrl suSample
        cSample envV4 "upload-1" "my-bucket" "key.bin" 3 1024 3600000000000 "us-east-1") ∧
      ("uploadId", "upload-1") ∈ resultQuery (GenUploadPartSignedUrl suSample cSample envV4
        "upload-1" "my-bucket" "key.bin" 3 1024 3600000000000 "us-east-1") :=
  (c9_gen_upload_part_signed_url suSample cSample envV4 "upload-1" "my-bucket" "key.bin"
    3 1024 3600000000000 "us-east-1" credsV4).2 rfl rfl (by decide) (by decide) (by decide)
    (by decide) (by decide) rfl (by decide) (by decide) (Or.inl rfl)

/-! ## Claim C10 -/

/-- Claim C10: an expiry shorter than one second (zero included) truncates
to `expires = 0`, so the presign branch of `newRequest` is skipped
entirely: even anonymous credentials are not rejected, and the returned
URL's query is exactly the `partNumber` and `uploadId` pair — no
signature parameters. -/
theorem c10_subsecond_expiry_skips_presign (su : S3Utils) (c : Client) (env : NewReqEnv)
    (uploadID bucketName objectName : String) (partNumber size expires : Int)
    (bucketLocation : String) (v : CredValue)
    (hcb : su.checkValidBucketName bucketName = none)
    (hco : su.checkValidObjectName objectName = none)
    (hs1 : size ≤ maxPartSize) (hs2 : -1 < size) (hs3 : 0 < partNumber)
    (hs4 : uploadID ≠ "") (hbl : bucketLocation ≠ "")
    (hcred : env.credsResult = Except.ok v)
    (hmk : su.isAmazonEndpoint c.endpointHost = false ∨ c.s3AccelerateEndpoint = "" ∨
      ('.') ∉ bucketName.data)
    (hd0 : 0 ≤ expires) (hd1 : expires < 1000000000) :
    exceptIsOk (GenUploadPartSignedUrl su c env uploadID bucketName objectName
        partNumber size expires bucketLocation) = true ∧
      resultQuery (GenUploadPartSignedUrl su c env uploadID bucketName objectName
          partNumber size expires bucketLocation) =
        [("partNumber", toString partNumber), ("uploadId", uploadID)] := by
  have h0 : Int.tdiv expires 1000000000 = 0 := tdiv_nanos_eq_zero hd0 hd1
  have hrl : resolveLocation su c env
      { presignURL := true, bucketName := bucketName, objectName := objectName,
        queryValues := [("partNumber", toString partNumber), ("uploadId", uploadID)],
        customHeader := [], contentLength := size,
        expires := Int.tdiv expires 1000000000, bucketLocation := bucketLocation } =
      Except.ok bucketLocation := by
    simp only [resolveLocation]
    rw [if_neg hbl]
  have hnp := newRequest_presign_query su c env "PUT"
    { presignURL := true, bucketName := bucketName, objectName := objectName,
      queryValues := [("partNumber", toString partNumber), ("uploadId", uploadID)],
      customHeader := [], contentLength := size,
      expires := Int.tdiv expires 1000000000, bucketLocation := bucketLocation }
    v bucketLocation hcred hrl hmk
  obtain ⟨r, hr, hq⟩ := hnp.1 (fun hc => hc.1 h0)
  simp only [GenUploadPartSignedUrl, hcb, hco, if_neg (not_lt.mpr hs1),
    if_neg (not_le.mpr hs2), if_neg (not_le.mpr hs3), if_neg hs4, hr]
  exact ⟨rfl, hq⟩

/-- Witness for C10: a half-second expiry with anonymous credentials is
not rejected and yields exactly the two upload query parameters. -/
theorem c10_subsecond_expiry_skips_presign_witness :
    exceptIsOk (GenUploadPartSignedUrl suSample cSample envAnon "upload-1" "my-bucket"
        "key.bin" 3 1024 500000000 "us-east-1") = true ∧
      resultQuery (GenUploadPartSignedUrl suSample cSample envAnon "upload-1" "my-bucket"
          "key.bin" 3 1024 500000000 "us-east-1") =
        [("partNumber", toString (3 : Int)), ("uploadId", "upload-1")] :=
  c10_subsecond_expiry_skips_presign suSample cSample envAnon "upload-1" "my-bucket"
    "key.bin" 3 1024 500000000 "us-east-1" credsAnon rfl rfl (by decide) (by decide)
    (by decide) (by decide) (by decide) rfl (Or.inl rfl) (by decide) (by decide)

theorem headerGet_append_ne {l : List (String × String)} {kv : String × String} {k : String}
    (h : (kv.1 == k) = false) : headerGet (l ++ [kv]) k = headerGet l k := by
  induction l with
  | nil => simp [headerGet, h]
  | cons p rest ih =>
    rw [List.cons_append, headerGet, headerGet]
    by_cases hp : p.1 == k
    · rw [if_pos hp, if_pos hp]
    · rw [if_neg hp, if_neg hp]
      exact ih

theorem copyRedirectHeaders_auth (lastHeader : List (String × String)) :
    ∀ reqHeader : List (String × String),
      headerGet (copyRedirectHeaders reqHeader lastHeader true) "Authorization" =
        headerGet reqHeader "Authorization" := by
  induction lastHeader with
  | nil => intro reqHeader; rfl
  | cons kv rest ih =>
    intro reqHeader
    rw [copyRedirectHeaders, List.foldl_cons]
    by_cases hk : kv.1 == "Authorization"
    · rw [if_pos (by simp [hk])]
      exact ih reqHeader
    · rw [if_neg (by simp [hk])]
      by_cases hpresent : (headerGet reqHeader kv.1).isSome
      · rw [if_pos hpresent]
        exact ih reqHeader
      · rw [if_neg hpresent]
        rw [show List.foldl _ (reqHeader ++ [kv]) rest =
          copyRedirectHeaders (reqHeader ++ [kv]) rest true from rfl]
        rw [ih (reqHeader ++ [kv])]
        exact headerGet_append_ne (by simpa using hk)

/-! ## Claim C7 -/

/-- Claim C7: after 5 hops the redirect aborts with an error; when the
target host differs from the previous request's host the prior
`Authorization` header is not copied onto the new request; and when the
previous request did carry an `Authorization` header, an effective V2
signer makes the hook fail with the redirect error while an effective V4
signer re-signs with the client's region, or the region derived from the
redirect target URL, defaulting to `us-east-1`. -/
theorem c7_redirect_reauthentication (su : S3Utils) (c : Client)
    (credsResult : Except GoErr CredValue) (req : RequestSnapshot)
    (via : List RequestSnapshot) :
    (via.length ≥ 5 →
      redirectHeaders su c credsResult req via =
        RedirectResult.failed (GoErr.simple "stopped after 5 redirects")) ∧
      (∀ (lastRequest : RequestSnapshot), via.getLast? = some lastRequest →
        req.host ≠ lastRequest.host →
        ∀ (header : List (String × String)) (resigned : Option String),
          redirectHeaders su c credsResult req via = RedirectResult.okRes header resigned →
          headerGet header "Authorization" = headerGet req.header "Authorization") ∧
      (∀ (v : CredValue) (lastRequest : RequestSnapshot),
        via.length < 5 → via.getLast? = some lastRequest →
        credsResult = Except.ok v →
        req.host ≠ lastRequest.host →
        hasHeaderKey lastRequest.header "Authorization" = true →
        ((effectiveSignerType c.overrideSignerType v).IsV2 = true →
          redirectHeaders su c credsResult req via =
            RedirectResult.failed (GoErr.simple "signature V2 cannot support redirection")) ∧
        ((effectiveSignerType c.overrideSignerType v).IsV4 = true →
          redirectHeaders su c credsResult req via =
            RedirectResult.okRes (copyRedirectHeaders req.header lastRequest.header true)
              (some (if c.region = "" then
                  (if su.getRegionFromURL req.urlHost = "" then "us-east-1"
                   else su.getRegionFromURL req.urlHost)
                else c.region)))) := by
  refine ⟨?_, ?_, ?_⟩
  · intro h5
    rw [redirectHeaders, if_pos h5]
  · intro lastRequest hlast hhosts header resigned h
    by_cases h5 : via.length ≥ 5
    · rw [redirectHeaders, if_pos h5] at h; cases h
    · have hbne : (req.host != lastRequest.host) = true := bne_iff_ne.mpr hhosts
      cases credsResult with
      | error e =>
        simp only [redirectHeaders, if_neg h5, hlast] at h
        cases h
      | ok v =>
        simp only [redirectHeaders, if_neg h5, hlast, hbne, Bool.true_and] at h
        split_ifs at h <;> cases h <;>
          exact copyRedirectHeaders_auth lastRequest.header req.header
  · intro v lastRequest h5 hlast hcred hhosts hauth
    have hbne : (req.host != lastRequest.host) = true := bne_iff_ne.mpr hhosts
    have hnot5 : ¬ via.length ≥ 5 := by omega
    constructor
    · intro hv2
      simp only [redirectHeaders, if_neg hnot5, hlast, hcred, hbne, hauth, Bool.true_and]
      rw [if_pos trivial, if_pos hv2]
    · intro hv4
      have hnv2 : (effectiveSignerType c.overrideSignerType v).IsV2 = false := by
        cases hst : effectiveSignerType c.overrideSignerType v <;>
          first
            | rfl
            | (rw [hst] at hv4; cases hv4)
      have hloc : getDefaultLocation su req.urlHost
          (if c.region = "" then su.getRegionFromURL req.urlHost else c.region) =
          (if c.region = "" then
            (if su.getRegionFromURL req.urlHost = "" then "us-east-1"
             else su.getRegionFromURL req.urlHost)
          else c.region) := by
        by_cases hr : c.region = ""
        · rw [if_pos hr, if_pos hr]
          simp only [getDefaultLocation]
          by_cases hd : su.getRegionFromURL req.urlHost = ""
          · rw [if_neg (fun hne => hne hd), if_pos hd]
          · rw [if_pos hd, if_neg hd]
        · rw [if_neg hr, if_neg hr]
          simp only [getDefaultLocation]
          rw [if_pos hr]
      simp only [redirectHeaders, if_neg hnot5, hlast, hcred, hbne, hauth, Bool.true_and]
      rw [if_pos trivial, if_neg (by simp [hnv2]), if_pos hv4, hloc]

/-- A redirect target on a host different from the previous request. -/
def reqRedir : RequestSnapshot :=
  { host := "bucket.s3.amazonaws.com", urlHost := "bucket.s3.amazonaws.com", header := [] }

/-- The previous request of the redirect, carrying an Authorization
header. -/
def lastRedir : RequestSnapshot :=
  { host := "old.example.com", urlHost := "old.example.com",
    header := [("Authorization", "AWS4-HMAC-SHA256 credential"), ("X-Custom", "1")] }

/-- Witness for C7: a V4-signed cross-host redirect re-signs with the
default region (the sample region resolver yields no region). -/
theorem c7_redirect_reauthentication_witness :
    redirectHeaders suSample cSample (Except.ok credsV4) reqRedir [lastRedir] =
      RedirectResult.okRes (copyRedirectHeaders reqRedir.header lastRedir.header true)
        (some (if cSample.region = "" then
            (if suSample.getRegionFromURL reqRedir.urlHost = "" then "us-east-1"
             else suSample.getRegionFromURL reqRedir.urlHost)
          else cSample.region)) :=
  ((c7_redirect_reauthentication suSample cSample (Except.ok credsV4) reqRedir
    [lastRedir]).2.2 credsV4 lastRedir (by decide) rfl rfl (by decide) (by decide)).2 rfl

end MinioExt
